import Mathlib

/-!
Verification of the command-builder-and-dispatcher tool in `src/encode.py`.

The program builds, per selected resolution profile, one argument list for an
external encoder binary, runs it synchronously, and aborts the whole run on the
first non-zero exit status.  This file embeds the argument construction
(`encode_video`, lines 6-76), the profile table and selector (lines 107-115),
the command-line surface built with `argparse` (lines 83-105), and the
sequential dispatch loop (lines 118-128), and proves the testable properties
of the specification against that embedding.
-/

/-- Python truthiness of an optional string argument (`if soft_sub:`):
`None` and the empty string are falsy, every other string is truthy. -/
def pyTruthy : Option String → Bool
  | none => false
  | some s => !(s == "")

/-- The record stored for each profile name in the `resolutions` table of
`src/encode.py` lines 107-112. -/
structure ResOpts where
  res : String
  bitrate : String
  maxrate : String
  bufsize : String
  audio : String
  sample_rate : Nat
deriving DecidableEq

/-- The built-in profile table (`resolutions`, lines 107-112), in the fixed
definition order 1080p, 720p, 480p, 360p. -/
def resolutionsTable : List (String × ResOpts) :=
  [ ("1080p", ⟨"1920x1080", "3000k", "3500k", "6000k", "125k", 48000⟩),
    ("720p",  ⟨"1280x720",  "2000k", "2500k", "4000k", "110k", 48000⟩),
    ("480p",  ⟨"854x480",   "1000k", "1500k", "2000k", "90k",  44100⟩),
    ("360p",  ⟨"640x360",   "700k",  "1200k", "1400k", "75k",  44100⟩) ]

/-- Table lookup `resolutions[r]` together with the `r in resolutions`
membership test of line 115. -/
def lookupRes (r : String) : Option (String × ResOpts) :=
  resolutionsTable.find? (fun p => p.1 == r)

/-- One step of building the Python dict comprehension
`{r: resolutions[r] for r in args.resolutions if r in resolutions}` of
line 115: a name not in the table is skipped, a name already inserted keeps
its first position (Python dicts preserve insertion order). -/
def sel_step (acc : List (String × ResOpts)) (r : String) : List (String × ResOpts) :=
  match lookupRes r with
  | none => acc
  | some p => if acc.any (fun q => q.1 == r) then acc else acc ++ [p]

/-- The profile selector of line 115: the whole table when `"all"` is among the
requested names, otherwise the dict comprehension over the requested list. -/
def selected (req : List String) : List (String × ResOpts) :=
  if "all" ∈ req then resolutionsTable else req.foldl sel_step []

/-- Spec-side ordering for the amended selector claim: the valid requested
names in order of first occurrence in the request, duplicates collapsed to
their first position.  Written from the claim's words, to be compared with the
key sequence the selector actually produces. -/
def first_occurrences (req : List String) : List String :=
  req.foldl (fun ks r => if (lookupRes r).isSome && !(ks.contains r) then ks ++ [r] else ks) []

/-- The `drawtext` stage of the video filter chain (line 16). -/
def drawtext_filter (font_path text : String) (x y fontsize : Int) (fontcolor : String) : String :=
  "drawtext=fontfile=\x27" ++ font_path ++ "\x27:text=\x27" ++ text ++ "\x27:x="
    ++ toString x ++ ":y=" ++ toString y ++ ":fontsize=" ++ toString fontsize
    ++ ":fontcolor=" ++ fontcolor

/-- The optional burn-in subtitle stage (lines 13-14): appended only when
`burn_sub` is truthy. -/
def burn_stage : Option String → List String
  | none => []
  | some b => if b == "" then [] else ["subtitles=\x27" ++ b ++ "\x27"]

/-- The video filter list of `encode_video` (lines 12-17): scale stage, then
the optional burn-in stage, then the drawtext overlay. -/
def filters (resolution : String) (burn_sub : Option String) (font_path text : String)
    (x y fontsize : Int) (fontcolor : String) : List String :=
  ["scale=" ++ resolution] ++ burn_stage burn_sub
    ++ [drawtext_filter font_path text x y fontsize fontcolor]

/-- `filter_complex = ",".join(filters)` (line 18). -/
def filter_complex (resolution : String) (burn_sub : Option String) (font_path text : String)
    (x y fontsize : Int) (fontcolor : String) : String :=
  String.intercalate "," (filters resolution burn_sub font_path text x y fontsize fontcolor)

/-- The extra input tokens for a truthy soft subtitle (lines 24-25). -/
def soft_input : Option String → List String
  | none => []
  | some s => if s == "" then [] else ["-i", s]

/-- The extra stream map for a truthy soft subtitle (lines 34-35). -/
def soft_map (soft_sub : Option String) : List String :=
  if pyTruthy soft_sub then ["-map", "1:0"] else []

/-- The subtitle stream codec and language metadata for a truthy soft subtitle
(lines 57-61). -/
def soft_codec (soft_sub : Option String) (lang : String) : List String :=
  if pyTruthy soft_sub then ["-c:s", "mov_text", "-metadata:s:s:0", "language=" ++ lang]
  else []

/-- The fixed video encoding settings block (lines 38-46). -/
def video_settings (pix_fmt bitrate maxrate bufsize : String) : List String :=
  ["-c:v", "libx264", "-profile:v", "high", "-pix_fmt", pix_fmt, "-b:v", bitrate,
   "-maxrate", maxrate, "-bufsize", bufsize, "-preset", "medium"]

/-- The fixed audio encoding settings block (lines 49-54). -/
def audio_settings (audio_bitrate : String) (sample_rate : Nat) : List String :=
  ["-c:a", "aac", "-b:a", audio_bitrate, "-ar", toString sample_rate, "-ac", "2"]

/-- The global flags and output file tokens (lines 64-70). -/
def global_flags (output_file : String) : List String :=
  ["-map_metadata", "-1", "-map_chapters", "-1", "-movflags", "+faststart", "-dn",
   output_file]

/-- The full argument list assembled by `encode_video` (lines 12-70), in source
order: base command and primary input, optional soft-subtitle input, filter
chain, primary stream maps, optional subtitle map, video settings, audio
settings, optional subtitle codec and metadata, global flags and output. -/
def ffmpeg_cmd (input_file output_file font_path text : String) (x y fontsize : Int)
    (fontcolor bitrate audio_bitrate maxrate bufsize pix_fmt : String) (sample_rate : Nat)
    (resolution : String) (soft_sub burn_sub : Option String) (lang : String) : List String :=
  ["ffmpeg", "-threads", "0", "-i", input_file]
    ++ soft_input soft_sub
    ++ ["-vf", filter_complex resolution burn_sub font_path text x y fontsize fontcolor]
    ++ ["-map", "0:v", "-map", "0:a"]
    ++ soft_map soft_sub
    ++ video_settings pix_fmt bitrate maxrate bufsize
    ++ audio_settings audio_bitrate sample_rate
    ++ soft_codec soft_sub lang
    ++ global_flags output_file

/-- The command-line arguments accepted by the parser of lines 83-105, after
parsing: positional `input` and `output`, the flag values with their defaults,
`soft`/`burn` as `none` when the flag is absent, and the requested
`resolutions` list (default `["all"]`). -/
structure Args where
  input : String
  output : String
  x : Int
  y : Int
  fontsize : Int
  fontcolor : String
  pix_fmt : String
  soft : Option String
  burn : Option String
  lang : String
  watermark : String
  resolutions : List String
deriving DecidableEq

/-- The accepted values of `--resolutions` (`choices=`, line 101). -/
def choices : List String := ["all", "1080p", "720p", "480p", "360p"]

/-- Models the `argparse` validation configured in lines 83-105: the mutually
exclusive group `--soft` / `--burn` (lines 93-95) rejects a command line that
supplies both, and the `choices` list of `--resolutions` (lines 100-103)
rejects any requested name outside it; `nargs` of `+` rejects an empty value
list.  On a violation `argparse` prints the diagnostic and exits with status 2
before the main body runs. -/
def parse_args (a : Args) : Except String Args :=
  if a.soft.isSome && a.burn.isSome then
    Except.error "argument --burn: not allowed with argument --soft"
  else if !(a.resolutions.all (fun r => choices.contains r)) then
    Except.error "argument --resolutions: invalid choice"
  else if a.resolutions.isEmpty then
    Except.error "argument --resolutions: expected at least one argument"
  else Except.ok a

/-- The per-profile command lists built by the main loop (lines 118-126): one
`encode_video` argument list per selected profile, with the output file
`f"{args.output}_{name}.mp4"` of line 119. -/
def main_cmds (a : Args) (font_path : String) : List (List String) :=
  (selected a.resolutions).map (fun p =>
    ffmpeg_cmd a.input (a.output ++ "_" ++ p.1 ++ ".mp4") font_path a.watermark
      a.x a.y a.fontsize a.fontcolor p.2.bitrate p.2.audio p.2.maxrate p.2.bufsize
      a.pix_fmt p.2.sample_rate p.2.res a.soft a.burn a.lang)

/-- The observable outcome of one run of the program: the argument lists passed
to `subprocess.run` in order, the lines printed to the error stream, whether
the final success message `Encoding complete!` was printed, and the process
exit code. -/
structure RunResult where
  dispatched : List (List String)
  stderr_lines : List String
  complete : Bool
  exitCode : Nat
deriving DecidableEq

/-- The sequential dispatch loop (lines 118-126 with lines 73-76): each command
is run synchronously; a non-zero return code prints `Error: Encoding failed!`
to the error stream and exits the whole process with status 1; when every
command succeeds the loop falls through to line 128 and the process exits 0. -/
def run_loop (run : List String → Int) : List (List String) → RunResult
  | [] => ⟨[], [], true, 0⟩
  | c :: cs =>
    if run c ≠ 0 then ⟨[c], ["Error: Encoding failed!"], false, 1⟩
    else
      let r := run_loop run cs
      ⟨c :: r.dispatched, r.stderr_lines, r.complete, r.exitCode⟩

/-- The whole program: `argparse` validation, then the dispatch loop over the
per-profile commands.  A parse error is printed to the error stream and the
process exits with status 2 before any command is dispatched. -/
def run_program (run : List String → Int) (a : Args) (font_path : String) : RunResult :=
  match parse_args a with
  | Except.error e => ⟨[], [e], false, 2⟩
  | Except.ok a2 => run_loop run (main_cmds a2 font_path)

/-! ## Concrete inputs used in the closed-form checks -/

/-- A concrete parsed command line: three selected profiles, no subtitle
options, all defaults otherwise. -/
def sampleArgs : Args :=
  ⟨"in.mp4", "out", 20, 40, 30, "white@0.5", "yuv420p", none, none, "ar",
   "HALASHOW.COM", ["1080p", "720p", "480p"]⟩

/-- The command the main loop assembles for the 1080p profile of
`sampleArgs`. -/
def sampleCmd1080 : List String :=
  ffmpeg_cmd "in.mp4" "out_1080p.mp4" "font.ttf" "HALASHOW.COM" 20 40 30 "white@0.5"
    "3000k" "125k" "3500k" "6000k" "yuv420p" 48000 "1920x1080" none none "ar"

/-- The command the main loop assembles for the 720p profile of
`sampleArgs`. -/
def sampleCmd720 : List String :=
  ffmpeg_cmd "in.mp4" "out_720p.mp4" "font.ttf" "HALASHOW.COM" 20 40 30 "white@0.5"
    "2000k" "110k" "2500k" "4000k" "yuv420p" 48000 "1280x720" none none "ar"

/-- The command the main loop assembles for the 480p profile of
`sampleArgs`. -/
def sampleCmd480 : List String :=
  ffmpeg_cmd "in.mp4" "out_480p.mp4" "font.ttf" "HALASHOW.COM" 20 40 30 "white@0.5"
    "1000k" "90k" "1500k" "2000k" "yuv420p" 44100 "854x480" none none "ar"

/-- A concrete command line supplying both `--soft` and `--burn`. -/
def bothSubsArgs : Args :=
  ⟨"in.mp4", "out", 20, 40, 30, "white@0.5", "yuv420p", some "subs.srt",
   some "subs.srt", "ar", "HALASHOW.COM", ["all"]⟩

/-- A concrete command line requesting the unknown profile name `240p`. -/
def badResArgs : Args :=
  ⟨"in.mp4", "out", 20, 40, 30, "white@0.5", "yuv420p", none, none, "ar",
   "HALASHOW.COM", ["240p"]⟩

/-! ## Helper lemmas about the dispatch loop -/

/-- When every command of a list succeeds, the loop dispatches each exactly
once, prints nothing to the error stream, prints the completion message, and
exits 0. -/
theorem run_loop_all_success (run : List String → Int) :
    ∀ cmds : List (List String), (∀ c ∈ cmds, run c = 0) →
      run_loop run cmds = ⟨cmds, [], true, 0⟩ := by
  intro cmds
  induction cmds with
  | nil => intro _; rfl
  | cons c cs ih =>
    intro h
    have hc : run c = 0 := h c (List.mem_cons_self c cs)
    have hcs : ∀ d ∈ cs, run d = 0 := fun d hd => h d (List.mem_cons_of_mem c hd)
    simp [run_loop, hc, ih hcs]

/-- When every command of a prefix succeeds and the next command fails, the
loop stops right there: the failing command is the last one dispatched, the
error message is printed, and the exit code is 1. -/
theorem run_loop_first_failure (run : List String → Int) :
    ∀ (pre : List (List String)) (c : List String) (rest : List (List String)),
      (∀ d ∈ pre, run d = 0) → run c ≠ 0 →
      run_loop run (pre ++ c :: rest)
        = ⟨pre ++ [c], ["Error: Encoding failed!"], false, 1⟩ := by
  intro pre
  induction pre with
  | nil =>
    intro c rest _ hc
    simp [run_loop, hc]
  | cons d pre ih =>
    intro c rest hpre hc
    have hd : run d = 0 := hpre d (List.mem_cons_self d pre)
    have hpre2 : ∀ e ∈ pre, run e = 0 := fun e he => hpre e (List.mem_cons_of_mem d he)
    simp [run_loop, hd, ih c rest hpre2 hc]

/-! ## Helper lemmas about the profile selector -/

/-- A successful table lookup returns an entry whose key is the looked-up
name. -/
theorem lookupRes_key {r : String} {p : String × ResOpts}
    (h : lookupRes r = some p) : p.1 = r := by
  unfold lookupRes at h
  have hb := List.find?_some h
  exact eq_of_beq hb

/-- Membership in one selection step: an element is in `sel_step acc r` iff it
was already in `acc`, or it is the table entry for `r` and no entry with key
`r` was in `acc` yet. -/
theorem mem_sel_step {acc : List (String × ResOpts)} {r : String} {q : String × ResOpts} :
    q ∈ sel_step acc r
      ↔ q ∈ acc ∨ (lookupRes r = some q ∧ acc.any (fun p => p.1 == r) = false) := by
  unfold sel_step
  split
  · rename_i heq
    simp [heq]
  · rename_i p heq
    rw [heq]
    split
    · rename_i ha
      simp [ha]
    · rename_i ha
      have ha2 : acc.any (fun p => p.1 == r) = false := by
        cases hb : acc.any (fun p => p.1 == r)
        · rfl
        · exact absurd hb ha
      simp only [ha2, List.mem_append, List.mem_singleton, Option.some.injEq, and_true]
      constructor
      · rintro (h | h)
        · exact Or.inl h
        · exact Or.inr h.symm
      · rintro (h | h)
        · exact Or.inl h
        · exact Or.inr h.symm

/-- Characterisation of membership in the folded selection: starting from an
accumulator all of whose entries are table entries under their own key, the
result holds exactly the accumulator entries and the table entries of the
requested names. -/
theorem mem_foldl_sel (req : List String) :
    ∀ acc : List (String × ResOpts), (∀ p ∈ acc, lookupRes p.1 = some p) →
      ∀ q : String × ResOpts,
        (q ∈ req.foldl sel_step acc ↔ q ∈ acc ∨ (q.1 ∈ req ∧ lookupRes q.1 = some q)) := by
  induction req with
  | nil => simp
  | cons r rs ih =>
    intro acc hacc q
    rw [List.foldl_cons]
    have hstep : ∀ p ∈ sel_step acc r, lookupRes p.1 = some p := by
      intro p hp
      rcases mem_sel_step.1 hp with h | ⟨h1, -⟩
      · exact hacc p h
      · rw [lookupRes_key h1]
        exact h1
    rw [ih (sel_step acc r) hstep q, mem_sel_step]
    constructor
    · rintro ((h | ⟨h1, -⟩) | ⟨h1, h2⟩)
      · exact Or.inl h
      · refine Or.inr ⟨?_, ?_⟩
        · rw [lookupRes_key h1]
          exact List.mem_cons_self r rs
        · rw [lookupRes_key h1]
          exact h1
      · exact Or.inr ⟨List.mem_cons_of_mem r h1, h2⟩
    · rintro (h | ⟨h1, h2⟩)
      · exact Or.inl (Or.inl h)
      · rcases List.mem_cons.1 h1 with he | hm
        · cases ha : acc.any (fun p => p.1 == r) with
          | true =>
            rcases List.any_eq_true.1 ha with ⟨p, hp, hpr⟩
            have hpr2 : p.1 = r := eq_of_beq hpr
            have hlp : lookupRes r = some p := by
              rw [← hpr2]
              exact hacc p hp
            have hlq : lookupRes r = some q := by
              rw [← he]
              exact h2
            have hpq : p = q := by
              rw [hlp] at hlq
              exact Option.some.inj hlq
            exact Or.inl (Or.inl (hpq ▸ hp))
          | false =>
            refine Or.inl (Or.inr ⟨?_, rfl⟩)
            rw [← he]
            exact h2
        · exact Or.inr ⟨hm, h2⟩

/-- The folded selection never duplicates a key. -/
theorem nodup_foldl_sel (req : List String) :
    ∀ acc : List (String × ResOpts), ((acc.map Prod.fst).Nodup) →
      ((req.foldl sel_step acc).map Prod.fst).Nodup := by
  induction req with
  | nil => simp
  | cons r rs ih =>
    intro acc h
    rw [List.foldl_cons]
    apply ih
    unfold sel_step
    split
    · exact h
    · rename_i p heq
      split

      · exact h
      · rename_i ha
        have ha2 : acc.any (fun q => q.1 == r) = false := by
          cases hb : acc.any (fun q => q.1 == r)
          · rfl
          · exact absurd hb ha
        have hnr : r ∉ acc.map Prod.fst := by
          intro hmem
          rcases List.mem_map.1 hmem with ⟨q, hq, hq1⟩
          have hany : acc.any (fun q => q.1 == r) = true :=
            List.any_eq_true.2 ⟨q, hq, beq_iff_eq.2 hq1⟩
          rw [ha2] at hany
          exact Bool.false_ne_true hany
        have hp1 : p.1 = r := lookupRes_key heq
        rw [List.map_append, List.nodup_append]
        refine ⟨h, by simp, ?_⟩
        intro a hain hb
        simp only [List.map_cons, List.map_nil, List.mem_singleton] at hb
        rw [hb, hp1] at hain
        exact hnr hain

/-- The selector output never duplicates an entry. -/
theorem selected_nodup (req : List String) : (selected req).Nodup := by
  unfold selected
  by_cases h : "all" ∈ req
  · rw [if_pos h]
    decide
  · rw [if_neg h]
    exact List.Nodup.of_map Prod.fst (nodup_foldl_sel req [] (by simp))

/-- The key sequence after one selection step is the key sequence after one
step of the first-occurrence fold on the keys. -/
theorem map_fst_sel_step (acc : List (String × ResOpts)) (r : String) :
    (sel_step acc r).map Prod.fst
      = if (lookupRes r).isSome && !((acc.map Prod.fst).contains r)
        then acc.map Prod.fst ++ [r] else acc.map Prod.fst := by
  have hany : ∀ acc2 : List (String × ResOpts),
      (acc2.map Prod.fst).contains r = acc2.any (fun q => q.1 == r) := by
    intro acc2
    induction acc2 with
    | nil => rfl
    | cons q qs ih =>
      rw [List.map_cons, List.contains_cons, List.any_cons, ih, Bool.beq_comm]
  unfold sel_step
  split
  · rename_i heq
    rw [heq]
    simp
  · rename_i p heq
    rw [heq, hany acc]
    split
    · rename_i ha
      rw [ha]
      simp
    · rename_i ha
      have ha2 : acc.any (fun q => q.1 == r) = false := by
        cases hb : acc.any (fun q => q.1 == r)
        · rfl
        · exact absurd hb ha
      rw [ha2]
      simp [lookupRes_key heq]

/-- The key sequence of the folded selection is the first-occurrence fold of
the request over the starting key sequence. -/
theorem map_fst_foldl_sel (req : List String) :
    ∀ acc : List (String × ResOpts),
      (req.foldl sel_step acc).map Prod.fst
        = req.foldl
            (fun ks r => if (lookupRes r).isSome && !(ks.contains r) then ks ++ [r] else ks)
            (acc.map Prod.fst) := by
  induction req with
  | nil => intro acc; rfl
  | cons r rs ih =>
    intro acc
    rw [List.foldl_cons, List.foldl_cons, ih (sel_step acc r), map_fst_sel_step]

/-- An entry is in the profile table iff looking up its own key returns it. -/
theorem mem_table_iff (q : String × ResOpts) :
    q ∈ resolutionsTable ↔ lookupRes q.1 = some q := by
  constructor
  · intro h
    simp only [resolutionsTable, List.mem_cons, List.not_mem_nil, or_false] at h
    rcases h with h | h | h | h <;> (rw [h]; decide)
  · exact fun h => List.mem_of_find?_eq_some h

/-! ## Claim theorems -/

/-- Claim C1: if a spawned external encoder process exits with a non-zero
status for a selected profile (all earlier ones having succeeded), the program
prints `Error: Encoding failed!` on the error stream, terminates with process
exit code 1, does not print the completion message, and dispatches no
invocation for any later selected profile. -/
theorem dispatch_fail_stops_run (run : List String → Int) (a : Args) (font_path : String)
    (pre : List (List String)) (c : List String) (rest : List (List String))
    (hok : parse_args a = Except.ok a)
    (hsplit : main_cmds a font_path = pre ++ c :: rest)
    (hpre : ∀ d ∈ pre, run d = 0) (hc : run c ≠ 0) :
    run_program run a font_path = ⟨pre ++ [c], ["Error: Encoding failed!"], false, 1⟩ := by
  unfold run_program
  rw [hok]
  show run_loop run (main_cmds a font_path) = _
  rw [hsplit]
  exact run_loop_first_failure run pre c rest hpre hc

/-- Claim C9: when every spawned external process exits with status zero, the
program dispatches exactly one invocation per selected profile, prints nothing
to the error stream, prints the completion message, and exits with process
exit code 0. -/
theorem all_success_run (run : List String → Int) (a : Args) (font_path : String)
    (hok : parse_args a = Except.ok a)
    (hall : ∀ c ∈ main_cmds a font_path, run c = 0) :
    run_program run a font_path = ⟨main_cmds a font_path, [], true, 0⟩
      ∧ (main_cmds a font_path).length = (selected a.resolutions).length := by
  constructor
  · unfold run_program
    rw [hok]
    show run_loop run (main_cmds a font_path) = _
    exact run_loop_all_success run (main_cmds a font_path) hall
  · unfold main_cmds
    exact List.length_map _ _

/-- Claim C2: supplying both `--soft` and `--burn` is rejected by the mutually
exclusive group before any external process invocation: the parse error is
printed, nothing is dispatched, and the process exits with status 2. -/
theorem soft_burn_mutually_exclusive (run : List String → Int) (a : Args)
    (font_path s b : String) (hs : a.soft = some s) (hb : a.burn = some b) :
    run_program run a font_path
      = ⟨[], ["argument --burn: not allowed with argument --soft"], false, 2⟩ := by
  unfold run_program parse_args
  rw [hs, hb]
  rfl

/-- Claim C4 counterexample: for the requested subset of valid names given as
`360p` then `1080p`, the selector does not return the matching subset in table
order; the dict comprehension of line 115 iterates over the request, so the
result follows the request order. -/
theorem selector_table_order_counterexample :
    selected ["360p", "1080p"]
      ≠ resolutionsTable.filter (fun p => decide (p.1 ∈ ["360p", "1080p"])) := by
  decide

/-- Claim C4 (amended): for every request whose names all lie in the valid set,
the selector returns exactly the matching subset of the built-in profile table
— the same entries, each exactly once — ordered by first occurrence in the
request rather than by the table. -/
theorem selector_matching_subset_request_order (req : List String)
    (hv : ∀ r ∈ req, r ∈ ["1080p", "720p", "480p", "360p"]) :
    (selected req).Perm (resolutionsTable.filter (fun p => decide (p.1 ∈ req)))
    ∧ (selected req).map Prod.fst = first_occurrences req := by
  have hall : "all" ∉ req := by
    intro h
    have := hv "all" h
    simp at this
  constructor
  · have hnd1 : (selected req).Nodup := selected_nodup req
    have hnd2 : (resolutionsTable.filter (fun p => decide (p.1 ∈ req))).Nodup :=
      List.Nodup.filter _ (by decide)
    rw [List.perm_ext_iff_of_nodup hnd1 hnd2]
    intro q
    rw [List.mem_filter]
    unfold selected
    rw [if_neg hall]
    rw [mem_foldl_sel req [] (by simp) q]
    simp only [List.not_mem_nil, false_or, decide_eq_true_eq, mem_table_iff]
    exact and_comm
  · unfold selected first_occurrences
    rw [if_neg hall, map_fst_foldl_sel req []]
    rfl

/-- Claim C5 counterexample: requesting the unknown profile name `240p` is not
silently dropped — the `choices` validation of `--resolutions` rejects the
command line with a parse error and exit status 2, and nothing is dispatched. -/
theorem unknown_profile_rejected_counterexample :
    parse_args ⟨"in.mp4", "out", 20, 40, 30, "white@0.5", "yuv420p", none, none,
        "ar", "HALASHOW.COM", ["240p"]⟩
      = Except.error "argument --resolutions: invalid choice"
    ∧ run_program (fun _ => 0)
        ⟨"in.mp4", "out", 20, 40, 30, "white@0.5", "yuv420p", none, none,
         "ar", "HALASHOW.COM", ["240p"]⟩ "font.ttf"
      = ⟨[], ["argument --resolutions: invalid choice"], false, 2⟩ := by
  exact ⟨rfl, rfl⟩

/-- Claim C5 (amended): when a requested profile name is not one of the
accepted choices, the program is rejected at argument parsing — it prints the
parse error, exits with status 2, and dispatches no external invocation — so
no unknown name ever reaches the selection stage silently. -/
theorem unknown_profile_rejected (run : List String → Int) (a : Args)
    (font_path r : String) (hr : r ∈ a.resolutions) (hv : r ∉ choices) :
    ∃ e, parse_args a = Except.error e
      ∧ run_program run a font_path = ⟨[], [e], false, 2⟩ := by
  have hfail : a.resolutions.all (fun x => choices.contains x) = false := by
    rw [List.all_eq_false]
    refine ⟨r, hr, ?_⟩
    simp only [List.contains_eq_any_beq, List.any_eq_true, beq_iff_eq]
    rintro ⟨x, hx, hxr⟩
    exact hv (hxr ▸ hx)
  have hpe : ∃ e, parse_args a = Except.error e := by
    unfold parse_args
    by_cases hm : a.soft.isSome && a.burn.isSome
    · exact ⟨"argument --burn: not allowed with argument --soft", by rw [if_pos hm]⟩
    · refine ⟨"argument --resolutions: invalid choice", ?_⟩
      rw [if_neg hm, if_pos (by rw [hfail]; rfl)]
  obtain ⟨e, he⟩ := hpe
  refine ⟨e, he, ?_⟩
  unfold run_program
  rw [he]

/-- Claim C6: selecting `all` as the requested resolutions yields exactly the
four built-in profiles 1080p, 720p, 480p, 360p, in that fixed order. -/
theorem select_all_profiles :
    selected ["all"]
      = [ ("1080p", ⟨"1920x1080", "3000k", "3500k", "6000k", "125k", 48000⟩),
          ("720p",  ⟨"1280x720",  "2000k", "2500k", "4000k", "110k", 48000⟩),
          ("480p",  ⟨"854x480",   "1000k", "1500k", "2000k", "90k",  44100⟩),
          ("360p",  ⟨"640x360",   "700k",  "1200k", "1400k", "75k",  44100⟩) ] := by
  decide

/-- Claim C3: in soft-subtitle mode the assembled command contains the second
input source for the subtitle file, the additional stream map `1:0`, and the
subtitle-stream parameters (codec `mov_text` plus the language metadata tag);
in burn mode the command has exactly the shape with a single input source and
only the primary stream maps — the subtitle appears only as a stage of the
filter chain. -/
theorem subtitle_mode_command_shape (input_file output_file font_path text : String)
    (x y fontsize : Int) (fontcolor bitrate audio_bitrate maxrate bufsize pix_fmt : String)
    (sample_rate : Nat) (resolution lang s b : String) (hs : s ≠ "") (hb : b ≠ "") :
    ffmpeg_cmd input_file output_file font_path text x y fontsize fontcolor bitrate
        audio_bitrate maxrate bufsize pix_fmt sample_rate resolution (some s) none lang
      = ["ffmpeg", "-threads", "0", "-i", input_file] ++ ["-i", s]
        ++ ["-vf", filter_complex resolution none font_path text x y fontsize fontcolor]
        ++ ["-map", "0:v", "-map", "0:a"] ++ ["-map", "1:0"]
        ++ video_settings pix_fmt bitrate maxrate bufsize
        ++ audio_settings audio_bitrate sample_rate
        ++ ["-c:s", "mov_text", "-metadata:s:s:0", "language=" ++ lang]
        ++ global_flags output_file
    ∧ ffmpeg_cmd input_file output_file font_path text x y fontsize fontcolor bitrate
        audio_bitrate maxrate bufsize pix_fmt sample_rate resolution none (some b) lang
      = ["ffmpeg", "-threads", "0", "-i", input_file]
        ++ ["-vf", filter_complex resolution (some b) font_path text x y fontsize fontcolor]
        ++ ["-map", "0:v", "-map", "0:a"]
        ++ video_settings pix_fmt bitrate maxrate bufsize
        ++ audio_settings audio_bitrate sample_rate
        ++ global_flags output_file
    ∧ filter_complex resolution (some b) font_path text x y fontsize fontcolor
      = String.intercalate "," ["scale=" ++ resolution, "subtitles=\x27" ++ b ++ "\x27",
          drawtext_filter font_path text x y fontsize fontcolor] := by
  have hs2 : (s == "") = false := beq_eq_false_iff_ne.2 hs
  have hb2 : (b == "") = false := beq_eq_false_iff_ne.2 hb
  refine ⟨?_, ?_, ?_⟩
  · simp [ffmpeg_cmd, soft_input, soft_map, soft_codec, pyTruthy, hs2]
  · simp [ffmpeg_cmd, soft_input, soft_map, soft_codec, pyTruthy]
  · simp [filter_complex, filters, burn_stage, hb2]

/-- Claim C7: the video filter chain is the fixed-separator join of its stage
list; the scale stage is always present and first, the drawtext overlay is
always present and last, and when burn mode is selected (and only then) the
subtitle stage sits between them. -/
theorem filter_chain_structure (resolution font_path text : String) (x y fontsize : Int)
    (fontcolor : String) (burn_sub : Option String) :
    filter_complex resolution burn_sub font_path text x y fontsize fontcolor
      = String.intercalate ","
          (filters resolution burn_sub font_path text x y fontsize fontcolor)
    ∧ (filters resolution burn_sub font_path text x y fontsize fontcolor).head?
      = some ("scale=" ++ resolution)
    ∧ (filters resolution burn_sub font_path text x y fontsize fontcolor).getLast?
      = some (drawtext_filter font_path text x y fontsize fontcolor)
    ∧ (∀ b2 : String, burn_sub = some b2 → b2 ≠ "" →
        filters resolution burn_sub font_path text x y fontsize fontcolor
          = ["scale=" ++ resolution, "subtitles=\x27" ++ b2 ++ "\x27",
             drawtext_filter font_path text x y fontsize fontcolor])
    ∧ (pyTruthy burn_sub = false →
        filters resolution burn_sub font_path text x y fontsize fontcolor
          = ["scale=" ++ resolution,
             drawtext_filter font_path text x y fontsize fontcolor]) := by
  refine ⟨rfl, rfl, ?_, ?_, ?_⟩
  · unfold filters
    exact List.getLast?_concat _
  · intro b2 hb hb2
    subst hb
    simp [filters, burn_stage, beq_eq_false_iff_ne.2 hb2]
  · intro hfalse
    cases burn_sub with
    | none => simp [filters, burn_stage]
    | some s2 =>
      have hq : (s2 == "") = true := by
        cases hq2 : s2 == "" with
        | false =>
          have htrue : pyTruthy (some s2) = true := by
            show (!(s2 == "")) = true
            rw [hq2]
            rfl
          rw [htrue] at hfalse
          exact absurd hfalse (by decide)
        | true => rfl
      simp [filters, burn_stage, hq]

/-- The output file token is always the last element of the assembled
command. -/
theorem ffmpeg_cmd_getLast (input_file output_file font_path text : String)
    (x y fontsize : Int)
    (fontcolor bitrate audio_bitrate maxrate bufsize pix_fmt : String) (sample_rate : Nat)
    (resolution : String) (soft_sub burn_sub : Option String) (lang : String) :
    (ffmpeg_cmd input_file output_file font_path text x y fontsize fontcolor bitrate
        audio_bitrate maxrate bufsize pix_fmt sample_rate resolution soft_sub burn_sub
        lang).getLast?
      = some output_file := by
  unfold ffmpeg_cmd
  rw [show global_flags output_file
        = ["-map_metadata", "-1", "-map_chapters", "-1", "-movflags", "+faststart",
           "-dn"] ++ [output_file] from rfl,
      ← List.append_assoc]
  exact List.getLast?_concat _

/-- Claim C8: for every selected profile, the output file path passed to the
external process — the final token of the assembled command — is exactly
`{base}_{profile}.mp4`, where base is the positional output argument and
profile is the selected profile name. -/
theorem output_path_scheme (a : Args) (font_path : String) (i : Nat)
    (h1 : i < (main_cmds a font_path).length)
    (h2 : i < (selected a.resolutions).length) :
    ((main_cmds a font_path).get ⟨i, h1⟩).getLast?
      = some (a.output ++ "_" ++ ((selected a.resolutions).get ⟨i, h2⟩).1 ++ ".mp4") := by
  have hm : (main_cmds a font_path).get ⟨i, h1⟩
      = ffmpeg_cmd a.input
          (a.output ++ "_" ++ ((selected a.resolutions).get ⟨i, h2⟩).1 ++ ".mp4")
          font_path a.watermark a.x a.y a.fontsize a.fontcolor
          ((selected a.resolutions).get ⟨i, h2⟩).2.bitrate
          ((selected a.resolutions).get ⟨i, h2⟩).2.audio
          ((selected a.resolutions).get ⟨i, h2⟩).2.maxrate
          ((selected a.resolutions).get ⟨i, h2⟩).2.bufsize
          a.pix_fmt ((selected a.resolutions).get ⟨i, h2⟩).2.sample_rate
          ((selected a.resolutions).get ⟨i, h2⟩).2.res a.soft a.burn a.lang := by
    simp only [main_cmds, List.get_eq_getElem, List.getElem_map]
  rw [hm, ffmpeg_cmd_getLast]

/-- Claim C10: when the soft-subtitle option is unset, the assembled per-profile
argument lists are independent of the `--lang` value: two command lines
differing only in the language code produce identical commands. -/
theorem lang_noninterference_without_soft (input output : String) (x y fontsize : Int)
    (fontcolor pix_fmt : String) (burn : Option String) (lang1 lang2 watermark : String)
    (rs : List String) (font_path : String) :
    main_cmds (Args.mk input output x y fontsize fontcolor pix_fmt none burn lang1 watermark rs) font_path
      = main_cmds (Args.mk input output x y fontsize fontcolor pix_fmt none burn lang2 watermark rs) font_path := by
  unfold main_cmds
  apply List.map_congr_left
  intro p _
  simp [ffmpeg_cmd, soft_input, soft_map, soft_codec, pyTruthy]

/-! ## Closed-form checks of the claim theorems at concrete inputs -/

/-- Concrete check of `dispatch_fail_stops_run`: the first of the three
selected profiles fails, so only its command is dispatched, the error is
printed, and the program exits 1. -/
theorem dispatch_fail_stops_run_witness :
    parse_args sampleArgs = Except.ok sampleArgs
    ∧ main_cmds sampleArgs "font.ttf" = [] ++ sampleCmd1080 :: [sampleCmd720, sampleCmd480]
    ∧ (∀ d ∈ ([] : List (List String)), (fun _ : List String => (1 : Int)) d = 0)
    ∧ (fun _ : List String => (1 : Int)) sampleCmd1080 ≠ 0
    ∧ run_program (fun _ => (1 : Int)) sampleArgs "font.ttf"
        = ⟨[] ++ [sampleCmd1080], ["Error: Encoding failed!"], false, 1⟩ :=
  ⟨rfl, rfl, by simp, by decide,
    dispatch_fail_stops_run (fun _ => (1 : Int)) sampleArgs "font.ttf" []
      sampleCmd1080 [sampleCmd720, sampleCmd480] rfl rfl (by simp) (by decide)⟩

/-- Concrete check of `all_success_run`: all three profiles succeed, all three
commands are dispatched, and the program exits 0. -/
theorem all_success_run_witness :
    parse_args sampleArgs = Except.ok sampleArgs
    ∧ (∀ c ∈ main_cmds sampleArgs "font.ttf", (fun _ : List String => (0 : Int)) c = 0)
    ∧ (run_program (fun _ => (0 : Int)) sampleArgs "font.ttf"
          = ⟨main_cmds sampleArgs "font.ttf", [], true, 0⟩
        ∧ (main_cmds sampleArgs "font.ttf").length
          = (selected sampleArgs.resolutions).length) :=
  ⟨rfl, by simp,
    all_success_run (fun _ => (0 : Int)) sampleArgs "font.ttf" rfl (by simp)⟩

/-- Concrete check of `soft_burn_mutually_exclusive` on a command line
supplying both subtitle options. -/
theorem soft_burn_mutually_exclusive_witness :
    bothSubsArgs.soft = some "subs.srt"
    ∧ bothSubsArgs.burn = some "subs.srt"
    ∧ run_program (fun _ => (0 : Int)) bothSubsArgs "font.ttf"
        = ⟨[], ["argument --burn: not allowed with argument --soft"], false, 2⟩ :=
  ⟨rfl, rfl,
    soft_burn_mutually_exclusive (fun _ => (0 : Int)) bothSubsArgs "font.ttf"
      "subs.srt" "subs.srt" rfl rfl⟩

/-- Concrete check of `subtitle_mode_command_shape` with the subtitle file
`subs.srt` in each mode. -/
theorem subtitle_mode_command_shape_witness :
    ("subs.srt" : String) ≠ ""
    ∧ (ffmpeg_cmd "in.mp4" "out_1080p.mp4" "font.ttf" "HALASHOW.COM" 20 40 30
          "white@0.5" "3000k" "125k" "3500k" "6000k" "yuv420p" 48000 "1920x1080"
          (some "subs.srt") none "ar"
        = ["ffmpeg", "-threads", "0", "-i", "in.mp4"] ++ ["-i", "subs.srt"]
          ++ ["-vf", filter_complex "1920x1080" none "font.ttf" "HALASHOW.COM"
                20 40 30 "white@0.5"]
          ++ ["-map", "0:v", "-map", "0:a"] ++ ["-map", "1:0"]
          ++ video_settings "yuv420p" "3000k" "3500k" "6000k"
          ++ audio_settings "125k" 48000
          ++ ["-c:s", "mov_text", "-metadata:s:s:0", "language=" ++ "ar"]
          ++ global_flags "out_1080p.mp4"
      ∧ ffmpeg_cmd "in.mp4" "out_1080p.mp4" "font.ttf" "HALASHOW.COM" 20 40 30
          "white@0.5" "3000k" "125k" "3500k" "6000k" "yuv420p" 48000 "1920x1080"
          none (some "subs.srt") "ar"
        = ["ffmpeg", "-threads", "0", "-i", "in.mp4"]
          ++ ["-vf", filter_complex "1920x1080" (some "subs.srt") "font.ttf"
                "HALASHOW.COM" 20 40 30 "white@0.5"]
          ++ ["-map", "0:v", "-map", "0:a"]
          ++ video_settings "yuv420p" "3000k" "3500k" "6000k"
          ++ audio_settings "125k" 48000
          ++ global_flags "out_1080p.mp4"
      ∧ filter_complex "1920x1080" (some "subs.srt") "font.ttf" "HALASHOW.COM"
          20 40 30 "white@0.5"
        = String.intercalate ","
            ["scale=" ++ "1920x1080", "subtitles=\x27" ++ "subs.srt" ++ "\x27",
             drawtext_filter "font.ttf" "HALASHOW.COM" 20 40 30 "white@0.5"]) :=
  ⟨by decide,
    subtitle_mode_command_shape "in.mp4" "out_1080p.mp4" "font.ttf" "HALASHOW.COM"
      20 40 30 "white@0.5" "3000k" "125k" "3500k" "6000k" "yuv420p" 48000
      "1920x1080" "ar" "subs.srt" "subs.srt" (by decide) (by decide)⟩

/-- Concrete check of `selector_matching_subset_request_order` on the request
`360p 1080p`: the result is a permutation of the matching table subset and its
key order is the request order `360p`, `1080p`. -/
theorem selector_matching_subset_request_order_witness :
    (∀ r ∈ ["360p", "1080p"], r ∈ ["1080p", "720p", "480p", "360p"])
    ∧ ((selected ["360p", "1080p"]).Perm
          (resolutionsTable.filter (fun p => decide (p.1 ∈ ["360p", "1080p"])))
        ∧ (selected ["360p", "1080p"]).map Prod.fst = ["360p", "1080p"]) :=
  ⟨by decide,
    selector_matching_subset_request_order ["360p", "1080p"] (by decide)⟩

/-- Concrete check of `unknown_profile_rejected` on the request `240p`. -/
theorem unknown_profile_rejected_witness :
    "240p" ∈ badResArgs.resolutions
    ∧ "240p" ∉ choices
    ∧ ∃ e, parse_args badResArgs = Except.error e
        ∧ run_program (fun _ => (0 : Int)) badResArgs "font.ttf" = ⟨[], [e], false, 2⟩ :=
  ⟨by decide, by decide,
    unknown_profile_rejected (fun _ => (0 : Int)) badResArgs "font.ttf" "240p"
      (by decide) (by decide)⟩

/-- Concrete check of `filter_chain_structure` in burn mode and with no
subtitle option. -/
theorem filter_chain_structure_witness :
    filter_complex "1920x1080" (some "subs.srt") "font.ttf" "HALASHOW.COM" 20 40 30
        "white@0.5"
      = String.intercalate ","
          (filters "1920x1080" (some "subs.srt") "font.ttf" "HALASHOW.COM" 20 40 30
            "white@0.5")
    ∧ (filters "1920x1080" (some "subs.srt") "font.ttf" "HALASHOW.COM" 20 40 30
        "white@0.5").head? = some ("scale=" ++ "1920x1080")
    ∧ (filters "1920x1080" (some "subs.srt") "font.ttf" "HALASHOW.COM" 20 40 30
        "white@0.5").getLast?
      = some (drawtext_filter "font.ttf" "HALASHOW.COM" 20 40 30 "white@0.5")
    ∧ filters "1920x1080" (some "subs.srt") "font.ttf" "HALASHOW.COM" 20 40 30
        "white@0.5"
      = ["scale=" ++ "1920x1080", "subtitles=\x27" ++ "subs.srt" ++ "\x27",
         drawtext_filter "font.ttf" "HALASHOW.COM" 20 40 30 "white@0.5"]
    ∧ filters "1920x1080" none "font.ttf" "HALASHOW.COM" 20 40 30 "white@0.5"
      = ["scale=" ++ "1920x1080",
         drawtext_filter "font.ttf" "HALASHOW.COM" 20 40 30 "white@0.5"] :=
  ⟨(filter_chain_structure "1920x1080" "font.ttf" "HALASHOW.COM" 20 40 30 "white@0.5"
      (some "subs.srt")).1,
   (filter_chain_structure "1920x1080" "font.ttf" "HALASHOW.COM" 20 40 30 "white@0.5"
      (some "subs.srt")).2.1,
   (filter_chain_structure "1920x1080" "font.ttf" "HALASHOW.COM" 20 40 30 "white@0.5"
      (some "subs.srt")).2.2.1,
   (filter_chain_structure "1920x1080" "font.ttf" "HALASHOW.COM" 20 40 30 "white@0.5"
      (some "subs.srt")).2.2.2.1 "subs.srt" rfl (by decide),
   (filter_chain_structure "1920x1080" "font.ttf" "HALASHOW.COM" 20 40 30 "white@0.5"
      none).2.2.2.2 rfl⟩

/-- Concrete check of `output_path_scheme`: the first command of the sample run
ends in `out_1080p.mp4`. -/
theorem output_path_scheme_witness :
    ((main_cmds sampleArgs "font.ttf").get ⟨0, by decide⟩).getLast?
      = some (sampleArgs.output ++ "_"
          ++ ((selected sampleArgs.resolutions).get ⟨0, by decide⟩).1 ++ ".mp4") :=
  output_path_scheme sampleArgs "font.ttf" 0 (by decide) (by decide)
